import Mathlib

/-!
Verification of the smilefjeskart repository: the data-preparation pipeline
(`scripts/build-tilsyn-geojson.ts`) and the rating-derivation logic shared
with the map client (`computeSmileScore`).

JavaScript numbers are modelled as `Option ℚ`, where `none` stands for
NaN (and other non-finite values).  String-to-number conversion
(`Number(...)`) is modelled exactly for plain decimal numerals (optional
sign, digits, optional fraction); exotic syntaxes (hexadecimal, exponent
notation, `Infinity`) are conservatively modelled as NaN.  All data in this
pipeline (dates, ratings, coordinates) is plain decimal, so the model is
exact on the program's domain.

External HTTP services are modelled as environments mapping a request to an
HTTP outcome; the pipeline state carries ghost traces of the external calls
made, so that caching claims ("no second call") can be stated.
-/

namespace Smilefjes

/-- JavaScript whitespace characters (the set relevant to this dataset). -/
def isJsSpace (c : Char) : Bool :=
  (c == ' ') || (c == '\t') || (c == '\n') || (c == '\r') ||
  (c == Char.ofNat 11) || (c == Char.ofNat 12) || (c == Char.ofNat 160)

/-- Model of JavaScript `String.prototype.trim` (and the whitespace trimming
performed by `Number(...)` on string arguments). -/
def jsTrim (s : String) : String :=
  String.mk (((s.data.dropWhile isJsSpace).reverse.dropWhile isJsSpace).reverse)

/-- Value of a list of decimal digit characters, read in base 10. -/
def digitsVal (cs : List Char) : ℕ :=
  cs.foldl (fun a c => 10 * a + (c.toNat - 48)) 0

def allDigits (cs : List Char) : Bool :=
  cs.all Char.isDigit

/-- JavaScript `Number(t)` for a trimmed, non-empty string `t`, on plain
unsigned decimal numerals: digits with an optional fraction part.  The value
`digits(int ++ frac) / 10 ^ |frac|` is the exact decimal value.  Anything
else is NaN (`none`). -/
def parseUnsigned (cs : List Char) : Option ℚ :=
  let intp := cs.takeWhile (· ≠ '.')
  match cs.dropWhile (· ≠ '.') with
  | [] => if intp ≠ [] ∧ allDigits intp then some ((digitsVal intp : ℕ) : ℚ) else none
  | _ :: frac =>
    if (intp ≠ [] ∨ frac ≠ []) ∧ allDigits intp ∧ allDigits frac then
      some (Rat.divInt (digitsVal (intp ++ frac)) (10 ^ frac.length))
    else none

/-- JavaScript `Number(t)` for a trimmed non-empty string: optional sign,
then an unsigned decimal numeral. -/
def jsParseTrimmed (t : String) : Option ℚ :=
  match t.data with
  | c :: cs =>
    if c = '-' then (parseUnsigned cs).map (fun q => -q)
    else if c = '+' then parseUnsigned cs
    else parseUnsigned (c :: cs)
  | [] => none

/-- JavaScript `Number(s)` on a string: trims whitespace, the empty string is
`0`, otherwise the string is parsed as a decimal numeral; `none` is NaN. -/
def jsNumber (s : String) : Option ℚ :=
  let t := jsTrim s
  if t = "" then some 0 else jsParseTrimmed t

/-- `parseDato` from `scripts/build-tilsyn-geojson.ts`: an 8-character
day-month-year string is rearranged into year-month-day digit order and
converted with `Number`; any other length yields `0`. -/
def parseDato (ddmmyyyy : String) : Option ℚ :=
  let d := jsTrim ddmmyyyy
  if d.length ≠ 8 then some 0
  else
    let cs := d.data
    let dd := cs.take 2
    let mm := (cs.drop 2).take 2
    let yyyy := cs.drop 4
    jsNumber (String.mk (yyyy ++ mm ++ dd))

/-- JavaScript `>` on two numbers; any comparison with NaN is `false`. -/
def jsGt (a b : Option ℚ) : Bool :=
  match a, b with
  | some x, some y => decide (y < x)
  | _, _ => false

/-! ## Rating derivation (`computeSmileScore` from the map client) -/

/-- A JavaScript value that can sit in a rating field: a number (possibly
NaN, modelled `num none`) or a string.  An absent field is modelled as
`none` in `Option JVal` at the use sites. -/
inductive JVal where
  | num (v : Option ℚ)
  | str (s : String)
deriving DecidableEq

/-- `toNumberMaybe` from the map client: numbers pass through a finiteness
check, strings are trimmed (empty is rejected) and converted with `Number`;
anything else is `null`. -/
def toNumberMaybe (v : Option JVal) : Option ℚ :=
  match v with
  | some (.num q) => q
  | some (.str s) =>
    let t := jsTrim s
    if t = "" then none else jsParseTrimmed t
  | none => none

/-- The GeoJSON properties the map client reads (`Props` in the client). -/
structure Props where
  tilsynsobjektid : String
  orgnummer : Option String
  navn : String
  adresse : String
  dato : String
  karakter : Option JVal
  karakter1 : Option JVal
  karakter2 : Option JVal
  karakter3 : Option JVal
  karakter4 : Option JVal
  karakter5 : Option JVal
  karakter6 : Option JVal
  karakter7 : Option JVal
  karakter8 : Option JVal
  karakter9 : Option JVal
  karakter10 : Option JVal
  status : Option String
deriving DecidableEq

/-- The ten per-criterion fields, in the order the client reads them. -/
def rawFields (p : Props) : List (Option JVal) :=
  [p.karakter1, p.karakter2, p.karakter3, p.karakter4, p.karakter5,
   p.karakter6, p.karakter7, p.karakter8, p.karakter9, p.karakter10]

/-- One step of the candidate-collection loop in `computeSmileScore`:
a field is pushed when it parses to a finite number in `[0, 3]`. -/
def smileFold (acc : List ℚ) (r : Option JVal) : List ℚ :=
  match toNumberMaybe r with
  | none => acc
  | some n => if 0 ≤ n ∧ n ≤ 3 then acc ++ [n] else acc

/-- `computeSmileScore` from the map client: the maximum of the qualifying
per-criterion values; if none qualify, the legacy `karakter` field when it
parses to a finite number in `[0, 3]`; otherwise the sentinel `-1`. -/
def computeSmileScore (p : Props) : ℚ :=
  let candidates := (rawFields p).foldl smileFold []
  match candidates with
  | [] =>
    match toNumberMaybe p.karakter with
    | some fallback => if 0 ≤ fallback ∧ fallback ≤ 3 then fallback else -1
    | none => -1
  | c :: cs => cs.foldl max c

/-- Specification-side view of one per-criterion field: the value when it
parses to a finite number in the closed range `[0, 3]`, else nothing. -/
def qualifyingValue (r : Option JVal) : Option ℚ :=
  match toNumberMaybe r with
  | some n => if 0 ≤ n ∧ n ≤ 3 then some n else none
  | none => none

/-- The multiset of qualifying per-criterion values, per the specification. -/
def qualifying (p : Props) : List ℚ :=
  (rawFields p).filterMap qualifyingValue

/-- One step of a running maximum over an optional accumulator. -/
def maxStep (acc : Option ℚ) (x : ℚ) : Option ℚ :=
  match acc with
  | none => some x
  | some m => some (max m x)

/-- Maximum of a list of rationals, `none` on the empty list. -/
def listMax (l : List ℚ) : Option ℚ :=
  l.foldl maxStep none

/-- The rating-derivation rule stated the way the specification words it:
take the maximum of the qualifying per-criterion values; if there are none,
fall back to the legacy field when it parses to a finite number in `[0, 3]`;
otherwise the rating is unknown (`-1`). -/
def specRating (p : Props) : ℚ :=
  match listMax (qualifying p) with
  | some m => m
  | none =>
    match toNumberMaybe p.karakter with
    | some f => if 0 ≤ f ∧ f ≤ 3 then f else -1
    | none => -1

/-! ## Temporal reduction -/

/-- One parsed CSV row (`TilsynRow` in the pipeline script). -/
structure TilsynRow where
  tilsynsobjektid : String
  orgnummer : Option String
  navn : String
  adrlinje1 : Option String
  adrlinje2 : Option String
  postnr : Option String
  poststed : Option String
  tilsynid : Option String
  status : Option String
  dato : String
  total_karakter : String
deriving DecidableEq

/-- The row filter applied before reduction: entity id, date and name must
be truthy (non-empty). -/
def filterRows (rows : List TilsynRow) : List TilsynRow :=
  rows.filter (fun r =>
    decide (r.tilsynsobjektid ≠ "") && decide (r.dato ≠ "") && decide (r.navn ≠ ""))

/-- One step of the latest-per-entity reduction loop: replace the stored
record only when the key is absent or the new parsed date is strictly
greater (JavaScript `>`). -/
def latestStep (m : String → Option TilsynRow) (r : TilsynRow) : String → Option TilsynRow :=
  match m r.tilsynsobjektid with
  | none => fun k => if k = r.tilsynsobjektid then some r else m k
  | some cur =>
    if jsGt (parseDato r.dato) (parseDato cur.dato) then
      fun k => if k = r.tilsynsobjektid then some r else m k
    else m

/-- The `latest` map built by the pipeline over the (filtered) rows. -/
def buildLatest (rows : List TilsynRow) : String → Option TilsynRow :=
  rows.foldl latestStep (fun _ => none)

/-- Parsed date of a row as a rational, reading a NaN date as the `0` the
specification assigns to malformed dates. -/
def pdQ (r : TilsynRow) : ℚ :=
  (parseDato r.dato).getD 0

/-- The record the specification designates for a group of records sharing
an entity id: the first-encountered record whose parsed date attains the
maximum. -/
def specLatest (g : List TilsynRow) : Option TilsynRow :=
  match listMax (g.map pdQ) with
  | none => none
  | some m => (g.filter (fun r => decide (pdQ r = m))).head?

/-! ## Registry resolver (BRREG) -/

/-- Outcome of one HTTP request: 404, another non-2xx status, or a 2xx
response with a parsed JSON body. -/
inductive HttpResult (α : Type) where
  | notFound
  | httpError (code : ℕ)
  | ok (body : α)
deriving DecidableEq

/-- `fetchJsonOrNull`: a 404 is `null`, a non-2xx status is logged and
`null`, a 2xx body is returned. -/
def fetchJsonOrNull {α : Type} (r : HttpResult α) : Option α :=
  match r with
  | .ok body => some body
  | .notFound => none
  | .httpError _ => none

/-- A registry address variant (`BrregAdresse`): optional street lines,
postal code and place. -/
structure BrregAdresse where
  adresse : Option (List String)
  postnummer : Option String
  poststed : Option String
deriving DecidableEq

/-- A registry record (`BrregEntity`).  The organisation-number field is
optional here because the code guards it at runtime
(`u?.organisasjonsnummer`). -/
structure BrregEntity where
  organisasjonsnummer : Option String
  navn : Option String
  forretningsadresse : Option BrregAdresse
  beliggenhetsadresse : Option BrregAdresse
deriving DecidableEq

/-- Truthiness of `entity.organisasjonsnummer`: present and non-empty. -/
def orgnrTruthy (e : BrregEntity) : Bool :=
  match e.organisasjonsnummer with
  | some s => decide (s ≠ "")
  | none => false

/-- Truthiness of `u?.organisasjonsnummer` for an optional entity. -/
def popResult (x : Option BrregEntity) : Bool :=
  match x with
  | some e => orgnrTruthy e
  | none => false

/-- A representative point in a geocoder result; fields are `some` exactly
when present as JSON numbers. -/
structure KartRP where
  lat : Option ℚ
  lon : Option ℚ
deriving DecidableEq

/-- One address result in a geocoder response. -/
structure KartAdresseObj where
  representasjonspunkt : Option KartRP
deriving DecidableEq

/-- A parsed geocoder response body; `adresser` is `some` exactly when the
field is present and is an array. -/
structure KartPayload where
  adresser : Option (List KartAdresseObj)
deriving DecidableEq

/-- The external services, as an environment mapping a request to an HTTP
outcome.  A geocoder body of `none` models a 2xx response whose JSON is not
an object. -/
structure Env where
  under : String → HttpResult BrregEntity
  enhet : String → HttpResult BrregEntity
  kartverket : String → HttpResult (Option KartPayload)

/-- `fetchBrregEntity`: query the sub-entity endpoint first and use its
result when it carries a populated organisation number; otherwise query the
main-entity endpoint under the same condition; otherwise `null`. -/
def fetchBrregEntity (env : Env) (orgnr : String) : Option BrregEntity :=
  let u := fetchJsonOrNull (env.under orgnr)
  if popResult u then u
  else
    let e := fetchJsonOrNull (env.enhet orgnr)
    if popResult e then e
    else none

/-- `isValidOrgnr`: falsy values fail; otherwise the trimmed string must be
exactly nine ASCII digits. -/
def isValidOrgnr (orgnr : Option String) : Bool :=
  match orgnr with
  | none => false
  | some o =>
    if o = "" then false
    else
      let t := jsTrim o
      decide (t.length = 9) && allDigits t.data

/-- Join a list of strings with a separator (JavaScript `Array.join`). -/
def joinSep (sep : String) : List String → String
  | [] => ""
  | [x] => x
  | x :: y :: xs => x ++ sep ++ joinSep sep (y :: xs)

/-- JavaScript `filter(Boolean)` over optional strings: drops `undefined`
and empty strings. -/
def filterTruthy (l : List (Option String)) : List String :=
  l.filterMap (fun o =>
    match o with
    | some s => if s = "" then none else some s
    | none => none)

/-- `buildMatAdresseFallback`: join the truthy raw address fields with
commas and trim. -/
def buildMatAdresseFallback (r : TilsynRow) : String :=
  jsTrim (joinSep ", " (filterTruthy [r.adrlinje1, r.adrlinje2, r.postnr, r.poststed]))

/-- `pickBrregAdresse`: the operating-location address, else the
registered-office address, else nothing. -/
def pickBrregAdresse (entity : BrregEntity) : Option BrregAdresse :=
  match entity.beliggenhetsadresse with
  | some a => some a
  | none => entity.forretningsadresse

/-- `formatBrregAdresse`: join the truthy street lines with commas, join the
trimmed postal code and place with a space, join the two groups with a
comma; an empty result is `null`. -/
def formatBrregAdresse (addr : BrregAdresse) : Option String :=
  let lines := (addr.adresse.getD []).filter (fun s => decide (s ≠ ""))
  let pn := addr.postnummer.map jsTrim
  let ps := addr.poststed.map jsTrim
  let mainPart := jsTrim (joinSep ", " lines)
  let tailPart := jsTrim (joinSep " " (filterTruthy [pn, ps]))
  let full := jsTrim (joinSep ", " (filterTruthy [some mainPart, some tailPart]))
  if full.length ≠ 0 then some full else none

/-! ## Geocoder (Kartverket) -/

/-- Characters removed by `normalizeQuery` (straight and curly apostrophes
and the backquote). -/
def isApos (c : Char) : Bool :=
  (c == Char.ofNat 39) || (c == Char.ofNat 8217) || (c == Char.ofNat 96)

/-- Characters `normalizeQuery` replaces with a space. -/
def isPunctToSpace (c : Char) : Bool :=
  (c == '(') || (c == ')') || (c == ',')

/-- One step of collapsing whitespace runs to a single space
(`replace(\s+, one space)`), folded from the right. -/
def collapseStep (c : Char) (acc : List Char) : List Char :=
  if isJsSpace c then
    match acc with
    | d :: rest => if d = ' ' then d :: rest else ' ' :: d :: rest
    | [] => [' ']
  else c :: acc

/-- `normalizeQuery`: strip apostrophes, turn parentheses and commas into
spaces, collapse whitespace runs, trim. -/
def normalizeQuery (s : String) : String :=
  let noApos := s.data.filter (fun c => !isApos c)
  let spaced := noApos.map (fun c => if isPunctToSpace c then ' ' else c)
  jsTrim (String.mk (spaced.foldr collapseStep []))

/-- A coordinate pair. -/
structure LngLat where
  lon : ℚ
  lat : ℚ
deriving DecidableEq

/-- `extractLngLatFromKartverket`: the representative point of the first
address result, requiring numeric `lat` and `lon`. -/
def extractLngLatFromKartverket (payload : Option KartPayload) : Option LngLat :=
  match payload with
  | none => none
  | some obj =>
    match obj.adresser with
    | none => none
    | some [] => none
    | some (first :: _) =>
      match first.representasjonspunkt with
      | none => none
      | some rp =>
        match rp.lat, rp.lon with
        | some la, some lo => some { lon := lo, lat := la }
        | some _, none => none
        | none, _ => none

/-- `geocodeKartverket`: a non-2xx response (404 included) is `null`, a 2xx
response is parsed for the first representative point. -/
def geocodeKartverket (env : Env) (query : String) : Option LngLat :=
  match env.kartverket query with
  | .ok data => extractLngLatFromKartverket data
  | .notFound => none
  | .httpError _ => none

/-! ## The per-record pipeline (`main` loop body) -/

inductive Kilde where
  | BRREG
  | MAT
deriving DecidableEq

/-- The properties of one emitted GeoJSON feature (`TilsynProperties`). -/
structure TilsynProperties where
  tilsynsobjektid : String
  orgnummer : Option String
  navn : String
  adresse : String
  dato : String
  karakter : ℚ
  status : Option String
  adressekilde : Kilde
deriving DecidableEq

/-- One emitted GeoJSON point feature. -/
structure Feature where
  lon : ℚ
  lat : ℚ
  properties : TilsynProperties
deriving DecidableEq

/-- The in-memory state of the pipeline run: the two caches, the counters
the script keeps, the emitted features, and ghost traces of the external
calls made (used to state the caching claims). -/
structure PipeState where
  brregCache : String → Option (Option BrregEntity)
  geocodeCache : String → Option LngLat
  brregLookups : ℕ
  brregHits : ℕ
  geocodeAttempts : ℕ
  geocodeHits : ℕ
  geocodeSleeps : ℕ
  brregTrace : List String
  geocodeTrace : List String
  features : List Feature

/-- The validated, trimmed organisation number of a row, when present. -/
def rowOrgnr (r : TilsynRow) : Option String :=
  match r.orgnummer with
  | some o => if isValidOrgnr (some o) then some (jsTrim o) else none
  | none => none

/-- Cache-gated registry lookup: on a cache miss, call `fetchBrregEntity`
once and store whatever it returned (a hit leaves the state unchanged). -/
def ensureBrreg (env : Env) (s : PipeState) (o : String) : PipeState :=
  match s.brregCache o with
  | some _ => s
  | none =>
    { s with
      brregLookups := s.brregLookups + 1
      brregTrace := s.brregTrace ++ [o]
      brregCache := fun k => if k = o then some (fetchBrregEntity env o) else s.brregCache k }

/-- The state after the registry phase of one record. -/
def stateAfterBrreg (env : Env) (s : PipeState) (r : TilsynRow) : PipeState :=
  match rowOrgnr r with
  | some o => ensureBrreg env s o
  | none => s

/-- The formatted registry address of a row, read from the cache. -/
def brregFormatted (s : PipeState) (r : TilsynRow) : Option String :=
  match rowOrgnr r with
  | none => none
  | some o =>
    match s.brregCache o with
    | some (some e) =>
      match pickBrregAdresse e with
      | some a => formatBrregAdresse a
      | none => none
    | some none => none
    | none => none

/-- The best address of a record: a formatted registry address when one
exists, otherwise the non-empty raw-field fallback. -/
def bestAdresse (env : Env) (s : PipeState) (r : TilsynRow) : Option (String × Kilde) :=
  match brregFormatted (stateAfterBrreg env s r) r with
  | some f => some (f, Kilde.BRREG)
  | none =>
    let m := buildMatAdresseFallback r
    if m = "" then none else some (m, Kilde.MAT)

/-- The `brregHits` counter bump when the registry produced an address. -/
def brregHitBump (s : PipeState) (r : TilsynRow) : PipeState :=
  match brregFormatted s r with
  | some _ => { s with brregHits := s.brregHits + 1 }
  | none => s

/-- The embedded rating of a feature: `Number(total_karakter)` when finite,
else `-1`. -/
def jsKarakter (r : TilsynRow) : ℚ :=
  match jsNumber r.total_karakter with
  | some q => q
  | none => -1

/-- The feature emitted for a record at a given address and coordinate. -/
def mkFeature (r : TilsynRow) (orgnr : Option String) (addr : String) (kilde : Kilde)
    (geo : LngLat) : Feature :=
  { lon := geo.lon
    lat := geo.lat
    properties :=
      { tilsynsobjektid := r.tilsynsobjektid
        orgnummer := orgnr
        navn := r.navn
        adresse := addr
        dato := r.dato
        karakter := jsKarakter r
        status := r.status
        adressekilde := kilde } }

/-- The geocoding phase of one record: for an obtained address, use the
cached coordinate when present (no call, no delay); otherwise make one
external call, sleep, cache the coordinate only on success, and emit the
feature only when a coordinate was obtained. -/
def geocodePhase (env : Env) (s : PipeState) (r : TilsynRow) (orgnr : Option String)
    (best : Option (String × Kilde)) : PipeState :=
  match best with
  | none => s
  | some (addr, kilde) =>
    match s.geocodeCache addr with
    | some geo => { s with features := s.features ++ [mkFeature r orgnr addr kilde geo] }
    | none =>
      let geo := geocodeKartverket env (normalizeQuery addr)
      let s2 := { s with
        geocodeAttempts := s.geocodeAttempts + 1
        geocodeTrace := s.geocodeTrace ++ [normalizeQuery addr]
        geocodeSleeps := s.geocodeSleeps + 1
        geocodeHits := match geo with | some _ => s.geocodeHits + 1 | none => s.geocodeHits
        geocodeCache := match geo with
          | some g => fun k => if k = addr then some g else s.geocodeCache k
          | none => s.geocodeCache }
      match geo with
      | none => s2
      | some g => { s2 with features := s2.features ++ [mkFeature r orgnr addr kilde g] }

/-- Processing of one record by the main loop. -/
def processRow (env : Env) (s : PipeState) (r : TilsynRow) : PipeState :=
  let s1 := stateAfterBrreg env s r
  let s2 := brregHitBump s1 r
  geocodePhase env s2 r (rowOrgnr r) (bestAdresse env s r)

/-- Processing of a list of records in order. -/
def runAll (env : Env) (s : PipeState) (rows : List TilsynRow) : PipeState :=
  rows.foldl (processRow env) s

/-- The coordinate a record at address `a` ends up with: the cached one if
present, else the result of one external geocode of the normalized
address. -/
def geoOutcome (env : Env) (s : PipeState) (a : String) : Option LngLat :=
  match s.geocodeCache a with
  | some g => some g
  | none => geocodeKartverket env (normalizeQuery a)

/-- The empty starting state of a run. -/
def initState : PipeState :=
  { brregCache := fun _ => none
    geocodeCache := fun _ => none
    brregLookups := 0
    brregHits := 0
    geocodeAttempts := 0
    geocodeHits := 0
    geocodeSleeps := 0
    brregTrace := []
    geocodeTrace := []
    features := [] }

/-- The map-client property record corresponding to one pipeline feature:
the pipeline emits no `karakter1`..`karakter10` properties, and `karakter`
is a finite number. -/
def toClientProps (tp : TilsynProperties) : Props :=
  { tilsynsobjektid := tp.tilsynsobjektid
    orgnummer := tp.orgnummer
    navn := tp.navn
    adresse := tp.adresse
    dato := tp.dato
    karakter := some (JVal.num (some tp.karakter))
    karakter1 := none
    karakter2 := none
    karakter3 := none
    karakter4 := none
    karakter5 := none
    karakter6 := none
    karakter7 := none
    karakter8 := none
    karakter9 := none
    karakter10 := none
    status := tp.status }

/-! ## Concrete inputs used by examples, witnesses and counterexamples -/

def blankProps : Props :=
  { tilsynsobjektid := "", orgnummer := none, navn := "", adresse := "", dato := ""
    karakter := none, karakter1 := none, karakter2 := none, karakter3 := none
    karakter4 := none, karakter5 := none, karakter6 := none, karakter7 := none
    karakter8 := none, karakter9 := none, karakter10 := none, status := none }

/-- Criteria `[4, 2, 5, "1"]`. -/
def exC1a : Props :=
  { blankProps with
    karakter1 := some (.num (some 4)), karakter2 := some (.num (some 2))
    karakter3 := some (.num (some 5)), karakter4 := some (.str "1") }

/-- Criteria all in `{4, 5}` with legacy rating `"3"`. -/
def exC1b : Props :=
  { blankProps with
    karakter1 := some (.num (some 4)), karakter2 := some (.num (some 5))
    karakter := some (.str "3") }

/-- Criteria absent or non-numeric, legacy rating `"9"`. -/
def exC1c : Props :=
  { blankProps with karakter1 := some (.str "abc"), karakter := some (.str "9") }

/-- No criteria, legacy rating `"1"`. -/
def exC1d : Props :=
  { blankProps with karakter := some (.str "1") }

/-- A single per-criterion field holding the numeric text `"2.5"`. -/
def exC2 : Props :=
  { blankProps with karakter1 := some (.str "2.5") }

def blankRow : TilsynRow :=
  { tilsynsobjektid := "", orgnummer := none, navn := "", adrlinje1 := none
    adrlinje2 := none, postnr := none, poststed := none, tilsynid := none
    status := none, dato := "", total_karakter := "" }

/-- A row whose 8-character date is malformed, so it parses to NaN. -/
def rowNan : TilsynRow :=
  { blankRow with tilsynsobjektid := "a", navn := "Alfa", dato := "abcd1234"
                  total_karakter := "1" }

/-- A later row for the same entity with a well-formed date. -/
def rowOk : TilsynRow :=
  { blankRow with tilsynsobjektid := "a", navn := "Alfa", dato := "05032024"
                  total_karakter := "2" }

def rowsC3 : List TilsynRow := [rowNan, rowOk]

def rowW1 : TilsynRow :=
  { blankRow with tilsynsobjektid := "b", navn := "Be", dato := "01012024"
                  total_karakter := "1" }

def rowW2 : TilsynRow :=
  { blankRow with tilsynsobjektid := "b", navn := "Be", dato := "15012024"
                  total_karakter := "2" }

def rowsC3w : List TilsynRow := [rowW1, rowW2]

/-- An environment whose geocoder always answers with a server error. -/
def envGeoFail : Env :=
  { under := fun _ => .notFound, enhet := fun _ => .notFound
    kartverket := fun _ => .httpError 500 }

/-- A well-formed geocoder response body with one representative point. -/
def pointPayload : Option KartPayload :=
  some { adresser := some [{ representasjonspunkt := some { lat := some 59, lon := some 10 } }] }

/-- An environment whose geocoder always answers with `pointPayload`. -/
def envGeoOk : Env :=
  { under := fun _ => .notFound, enhet := fun _ => .notFound
    kartverket := fun _ => .ok pointPayload }

def rowAddr1 : TilsynRow :=
  { blankRow with tilsynsobjektid := "t1", navn := "En", dato := "01012024"
                  adrlinje1 := some "Gata 1", total_karakter := "1" }

def rowAddr2 : TilsynRow :=
  { blankRow with tilsynsobjektid := "t2", navn := "To", dato := "02012024"
                  adrlinje1 := some "Gata 1", total_karakter := "2" }

/-- A row whose legacy aggregate rating is the non-integer numeral `"2.5"`. -/
def rowHalf : TilsynRow :=
  { blankRow with tilsynsobjektid := "t3", navn := "Tre", dato := "03012024"
                  adrlinje1 := some "Gata 1", total_karakter := "2.5" }

/-- A row with a valid organisation number. -/
def rowOrg : TilsynRow :=
  { blankRow with tilsynsobjektid := "t4", navn := "Fire", dato := "01012024"
                  orgnummer := some "987654321", total_karakter := "1" }

def entUnder : BrregEntity :=
  { organisasjonsnummer := some "999888777", navn := some "Under AS"
    forretningsadresse := none, beliggenhetsadresse := none }

def entMain : BrregEntity :=
  { organisasjonsnummer := some "999888777", navn := some "Hoved AS"
    forretningsadresse := none, beliggenhetsadresse := none }

/-- Both registry endpoints answer, with different records. -/
def envBrregBoth : Env :=
  { under := fun _ => .ok entUnder, enhet := fun _ => .ok entMain
    kartverket := fun _ => .notFound }

/-! ## Helper lemmas -/

theorem foldl_maxStep_some (xs : List ℚ) :
    ∀ a : ℚ, xs.foldl maxStep (some a) = some (xs.foldl max a) := by
  induction xs with
  | nil => intro a; rfl
  | cons x xs ih => intro a; simpa [maxStep] using ih (max a x)

theorem listMax_cons (x : ℚ) (xs : List ℚ) :
    listMax (x :: xs) = some (xs.foldl max x) := by
  simpa [listMax, maxStep] using foldl_maxStep_some xs x

theorem listMax_eq_none_iff (l : List ℚ) : listMax l = none ↔ l = [] := by
  cases l with
  | nil => simp [listMax]
  | cons x xs => simp [listMax_cons]

theorem foldl_max_choice (xs : List ℚ) :
    ∀ a : ℚ, xs.foldl max a = a ∨ xs.foldl max a ∈ xs := by
  induction xs with
  | nil => intro a; left; rfl
  | cons x xs ih =>
    intro a
    rcases ih (max a x) with h | h
    · rcases max_choice a x with hm | hm
      · left; rw [List.foldl_cons, h, hm]
      · right; rw [List.foldl_cons, h, hm]; exact List.mem_cons_self x xs
    · right; exact List.mem_cons_of_mem x h

theorem foldl_max_le (xs : List ℚ) :
    ∀ a : ℚ, a ≤ xs.foldl max a ∧ ∀ x ∈ xs, x ≤ xs.foldl max a := by
  induction xs with
  | nil => intro a; exact ⟨le_refl a, by simp⟩
  | cons x xs ih =>
    intro a
    obtain ⟨h1, h2⟩ := ih (max a x)
    refine ⟨le_trans (le_max_left a x) h1, ?_⟩
    intro y hy
    rcases List.mem_cons.mp hy with rfl | hy
    · exact le_trans (le_max_right a y) h1
    · exact h2 y hy

theorem listMax_mem {l : List ℚ} {m : ℚ} (h : listMax l = some m) : m ∈ l := by
  cases l with
  | nil => simp [listMax] at h
  | cons x xs =>
    rw [listMax_cons] at h
    obtain rfl : xs.foldl max x = m := Option.some.inj h
    rcases foldl_max_choice xs x with h | h
    · rw [h]; exact List.mem_cons_self x xs
    · exact List.mem_cons_of_mem x h

theorem listMax_isUB {l : List ℚ} {m : ℚ} (h : listMax l = some m) :
    ∀ x ∈ l, x ≤ m := by
  cases l with
  | nil => simp
  | cons y ys =>
    rw [listMax_cons] at h
    obtain rfl : ys.foldl max y = m := Option.some.inj h
    intro x hx
    rcases List.mem_cons.mp hx with rfl | hx
    · exact (foldl_max_le ys x).1
    · exact (foldl_max_le ys y).2 x hx

theorem listMax_append_one (l : List ℚ) (x : ℚ) :
    listMax (l ++ [x]) = maxStep (listMax l) x := by
  simp [listMax, List.foldl_append]

theorem foldl_smileFold_eq (raws : List (Option JVal)) :
    ∀ acc : List ℚ, raws.foldl smileFold acc = acc ++ raws.filterMap qualifyingValue := by
  induction raws with
  | nil => intro acc; simp
  | cons r rest ih =>
    intro acc
    rw [List.foldl_cons, ih (smileFold acc r), List.filterMap_cons]
    cases htn : toNumberMaybe r with
    | none => simp [smileFold, qualifyingValue, htn]
    | some n =>
      by_cases hq : 0 ≤ n ∧ n ≤ 3
      · simp [smileFold, qualifyingValue, htn, hq]
      · simp [smileFold, qualifyingValue, htn, hq]

theorem computeSmileScore_eq_specRating (p : Props) :
    computeSmileScore p = specRating p := by
  unfold computeSmileScore specRating qualifying
  rw [foldl_smileFold_eq (rawFields p) []]
  simp only [List.nil_append]
  cases h : (rawFields p).filterMap qualifyingValue with
  | nil => rfl
  | cons c cs => rw [listMax_cons]

theorem qualifying_bounds {p : Props} {x : ℚ} (h : x ∈ qualifying p) :
    0 ≤ x ∧ x ≤ 3 := by
  unfold qualifying at h
  obtain ⟨r, _, hq⟩ := List.mem_filterMap.mp h
  unfold qualifyingValue at hq
  cases htn : toNumberMaybe r with
  | none => rw [htn] at hq; simp at hq
  | some n =>
    rw [htn] at hq
    dsimp only at hq
    by_cases hb : 0 ≤ n ∧ n ≤ 3
    · rw [if_pos hb] at hq
      obtain rfl : n = x := Option.some.inj hq
      exact hb
    · rw [if_neg hb] at hq; simp at hq

/-! ## Claims about rating derivation -/

/-- C1: the derived smile-face rating equals the maximum of the
per-criterion values that parse to a finite number in `[0, 3]` (4 and 5
never contribute); if none qualify it falls back to the legacy aggregate
when that parses to a finite number in `[0, 3]`; otherwise it is `-1`.
In particular: criteria `[4, 2, 5, "1"]` derive `2`; criteria all in
`{4, 5}` with legacy `"3"` derive `3`; no qualifying criteria with legacy
`"9"` derive `-1`; empty criteria with legacy `"1"` derive `1`. -/
theorem rating_derivation_correct :
    (∀ p : Props, computeSmileScore p = specRating p) ∧
    computeSmileScore exC1a = 2 ∧
    computeSmileScore exC1b = 3 ∧
    computeSmileScore exC1c = -1 ∧
    computeSmileScore exC1d = 1 :=
  ⟨computeSmileScore_eq_specRating, by decide, by decide, by decide, by decide⟩

/-- C2 (amended): the derived rating is `-1` or a finite rational in the
closed interval `[0, 3]` that is one of the qualifying per-criterion values
or the parsed legacy value; it is an integer in `{0, 1, 2, 3}` only when the
contributing field parses to an integer, and a field such as `"2.5"`
produces the non-integer `5/2` (see the counterexample). -/
theorem rating_range_provenance :
    ∀ p : Props, computeSmileScore p = -1 ∨
      (0 ≤ computeSmileScore p ∧ computeSmileScore p ≤ 3 ∧
        (computeSmileScore p ∈ qualifying p ∨
          toNumberMaybe p.karakter = some (computeSmileScore p))) := by
  intro p
  rw [computeSmileScore_eq_specRating p]
  unfold specRating
  cases hm : listMax (qualifying p) with
  | some m =>
    dsimp only
    right
    have hmem : m ∈ qualifying p := listMax_mem hm
    obtain ⟨h0, h3⟩ := qualifying_bounds hmem
    exact ⟨h0, h3, Or.inl hmem⟩
  | none =>
    cases htk : toNumberMaybe p.karakter with
    | none => left; rfl
    | some f =>
      dsimp only
      by_cases hf : 0 ≤ f ∧ f ≤ 3
      · right
        rw [if_pos hf]
        exact ⟨hf.1, hf.2, Or.inr rfl⟩
      · left
        rw [if_neg hf]

/-- C2 counterexample: on a per-criterion field holding `"2.5"`, the derived
rating is `5/2`, which is neither an integer in `{0, 1, 2, 3}` nor the
sentinel `-1`, refuting the claim that only those values are returned. -/
theorem rating_nonint_counterexample :
    computeSmileScore exC2 = 5 / 2 ∧
    ¬(computeSmileScore exC2 = 0 ∨ computeSmileScore exC2 = 1 ∨
      computeSmileScore exC2 = 2 ∨ computeSmileScore exC2 = 3 ∨
      computeSmileScore exC2 = -1) := by
  have h : computeSmileScore exC2 = Rat.divInt 25 10 := by decide
  have h2 : computeSmileScore exC2 = 5 / 2 := by rw [h, Rat.divInt_eq_div]; norm_num
  refine ⟨h2, ?_⟩
  rw [h2]
  norm_num

/-- C10: a pipeline-emitted feature carries no per-criterion rating fields,
so the map client's recomputed display score falls through to the fallback
branch: it equals the embedded `karakter` whenever that lies in `[0, 3]`,
and `-1` otherwise (in particular for the pipeline's `-1` sentinel). -/
theorem pipeline_client_score_agree :
    ∀ tp : TilsynProperties,
      computeSmileScore (toClientProps tp) =
        if 0 ≤ tp.karakter ∧ tp.karakter ≤ 3 then tp.karakter else -1 := by
  intro tp
  rfl

/-! ## Date parsing -/

theorem digit_not_special {c : Char} (h : c.isDigit = true) :
    c ≠ '-' ∧ c ≠ '+' ∧ c ≠ '.' ∧ isJsSpace c = false := by
  refine ⟨?_, ?_, ?_, ?_⟩
  · intro hc; rw [hc] at h; exact absurd h (by decide)
  · intro hc; rw [hc] at h; exact absurd h (by decide)
  · intro hc; rw [hc] at h; exact absurd h (by decide)
  · cases hb : isJsSpace c with
    | false => rfl
    | true =>
      have hc7 : c = ' ' ∨ c = '\t' ∨ c = '\n' ∨ c = '\x0d' ∨
          c = Char.ofNat 11 ∨ c = Char.ofNat 12 ∨ c = Char.ofNat 160 := by
        simpa [isJsSpace, or_assoc] using hb
      rcases hc7 with hc | hc | hc | hc | hc | hc | hc <;> rw [hc] at h <;>
        exact absurd h (by decide)

theorem dropWhile_eq_self_of {p : Char → Bool} {cs : List Char}
    (h : ∀ c ∈ cs, p c = false) : cs.dropWhile p = cs := by
  cases cs with
  | nil => rfl
  | cons c cs =>
    rw [List.dropWhile_cons, h c (List.mem_cons_self c cs)]
    simp

theorem takeWhile_eq_self_of {p : Char → Bool} :
    ∀ {cs : List Char}, (∀ c ∈ cs, p c = true) → cs.takeWhile p = cs := by
  intro cs
  induction cs with
  | nil => intro _; rfl
  | cons c cs ih =>
    intro h
    rw [List.takeWhile_cons, h c (List.mem_cons_self c cs)]
    simp only [if_true]
    rw [ih (fun x hx => h x (List.mem_cons_of_mem c hx))]

theorem dropWhile_eq_nil_of {p : Char → Bool} :
    ∀ {cs : List Char}, (∀ c ∈ cs, p c = true) → cs.dropWhile p = [] := by
  intro cs
  induction cs with
  | nil => intro _; rfl
  | cons c cs ih =>
    intro h
    rw [List.dropWhile_cons, h c (List.mem_cons_self c cs)]
    simp only [if_true]
    exact ih (fun x hx => h x (List.mem_cons_of_mem c hx))

theorem allDigits_mem {cs : List Char} (h : allDigits cs = true) :
    ∀ c ∈ cs, c.isDigit = true := by
  simpa [allDigits, List.all_eq_true] using h

theorem jsTrim_mk_of_no_space {cs : List Char}
    (h : ∀ c ∈ cs, isJsSpace c = false) : jsTrim (String.mk cs) = String.mk cs := by
  unfold jsTrim
  show String.mk ((((cs.dropWhile isJsSpace).reverse.dropWhile isJsSpace).reverse)) = _
  rw [dropWhile_eq_self_of h,
      dropWhile_eq_self_of (fun c hc => h c (List.mem_reverse.mp hc)),
      List.reverse_reverse]

theorem parseUnsigned_digits {cs : List Char} (hne : cs ≠ []) (h : allDigits cs = true) :
    parseUnsigned cs = some ((digitsVal cs : ℕ) : ℚ) := by
  unfold parseUnsigned
  have hall : ∀ c ∈ cs, (fun c => decide (c ≠ '.')) c = true := fun c hc =>
    decide_eq_true ((digit_not_special (allDigits_mem h c hc)).2.2.1)
  rw [takeWhile_eq_self_of hall, dropWhile_eq_nil_of hall]
  dsimp only
  rw [if_pos ⟨hne, h⟩]

theorem jsParseTrimmed_digits {cs : List Char} (hne : cs ≠ []) (h : allDigits cs = true) :
    jsParseTrimmed (String.mk cs) = some ((digitsVal cs : ℕ) : ℚ) := by
  unfold jsParseTrimmed
  cases cs with
  | nil => exact absurd rfl hne
  | cons c cs =>
    have hd : c.isDigit = true := allDigits_mem h c (List.mem_cons_self c cs)
    show (if c = '-' then _ else if c = '+' then _ else parseUnsigned (c :: cs)) = _
    rw [if_neg (digit_not_special hd).1, if_neg (digit_not_special hd).2.1]
    exact parseUnsigned_digits hne h

theorem string_mk_ne_empty {cs : List Char} (hne : cs ≠ []) : String.mk cs ≠ "" := by
  intro hc
  exact hne (congrArg String.data hc)

theorem jsNumber_digits {cs : List Char} (hne : cs ≠ []) (h : allDigits cs = true) :
    jsNumber (String.mk cs) = some ((digitsVal cs : ℕ) : ℚ) := by
  unfold jsNumber
  rw [jsTrim_mk_of_no_space
        (fun c hc => (digit_not_special (allDigits_mem h c hc)).2.2.2)]
  rw [if_neg (string_mk_ne_empty hne)]
  exact jsParseTrimmed_digits hne h

/-- C4 (amended): `parseDato` maps every string that does not trim to
exactly 8 characters to the integer `0`; an 8-character string is
rearranged into year-month-day digit order and converted with `Number`:
an all-digit string parses to the rearranged non-negative integer (so `0`
sorts before all valid dates), while a string containing a non-digit
parses to whatever `Number` yields on the rearranged text — NaN for
`"abcd1234"`, but, for example, the finite `2024111` for `"1.112024"` and
exactly `0` for `"0.000000"` (the rearranged text ends in a trailing dot
that `Number` accepts). -/
theorem parseDato_characterization :
    (∀ s : String, (jsTrim s).length ≠ 8 → parseDato s = some 0) ∧
    (∀ s : String, (jsTrim s).length = 8 →
      parseDato s = jsNumber (String.mk ((jsTrim s).data.drop 4 ++
        ((jsTrim s).data.drop 2).take 2 ++ (jsTrim s).data.take 2))) ∧
    (∀ s : String, (jsTrim s).length = 8 → allDigits (jsTrim s).data = true →
      parseDato s =
        some ((digitsVal ((jsTrim s).data.drop 4 ++
          ((jsTrim s).data.drop 2).take 2 ++ (jsTrim s).data.take 2) : ℕ) : ℚ) ∧
      (0 : ℚ) ≤ ((digitsVal ((jsTrim s).data.drop 4 ++
          ((jsTrim s).data.drop 2).take 2 ++ (jsTrim s).data.take 2) : ℕ) : ℚ)) ∧
    parseDato "05032024" = some 20240305 ∧
    parseDato "2024" = some 0 ∧
    parseDato "abcd1234" = none ∧
    parseDato "1.112024" = some 2024111 ∧
    parseDato "0.000000" = some 0 := by
  refine ⟨?_, ?_, ?_, by decide, by decide, by decide, by decide, by decide⟩
  · intro s hs
    unfold parseDato
    rw [if_pos hs]
  · intro s hlen
    unfold parseDato
    rw [if_neg (fun hc => hc hlen)]
  · intro s hlen hdig
    have hlen8 : (jsTrim s).data.length = 8 := hlen
    constructor
    · unfold parseDato
      rw [if_neg (fun hc => hc hlen)]
      dsimp only
      have hsub : ∀ c ∈ ((jsTrim s).data.drop 4 ++
          ((jsTrim s).data.drop 2).take 2 ++ (jsTrim s).data.take 2),
          c.isDigit = true := by
        intro c hc
        simp only [List.mem_append] at hc
        rcases hc with (hc | hc) | hc
        · exact allDigits_mem hdig c (List.drop_subset 4 _ hc)
        · exact allDigits_mem hdig c
            (List.drop_subset 2 _ (List.take_subset 2 _ hc))
        · exact allDigits_mem hdig c (List.take_subset 2 _ hc)
      have hne : ((jsTrim s).data.drop 4 ++
          ((jsTrim s).data.drop 2).take 2 ++ (jsTrim s).data.take 2) ≠ [] := by
        intro hc
        have := congrArg List.length hc
        simp [List.length_drop, hlen8] at this
      exact jsNumber_digits hne (by
        simp only [allDigits, List.all_eq_true]
        intro c hc
        exact hsub c (by simpa using hc))
    · exact Nat.cast_nonneg _

/-- C4 witness: the characterization applied at `"2024"` (wrong length,
parses to 0), at `"abcd1234"` (8 characters, goes through `Number` on the
rearranged text) and at `"05032024"` (valid, rearranged). -/
theorem parseDato_characterization_witness :
    parseDato "2024" = some 0 ∧
    parseDato "abcd1234" = jsNumber (String.mk ((jsTrim "abcd1234").data.drop 4 ++
      ((jsTrim "abcd1234").data.drop 2).take 2 ++ (jsTrim "abcd1234").data.take 2)) ∧
    (parseDato "05032024" =
        some ((digitsVal ((jsTrim "05032024").data.drop 4 ++
          ((jsTrim "05032024").data.drop 2).take 2 ++ (jsTrim "05032024").data.take 2) : ℕ) : ℚ) ∧
      (0 : ℚ) ≤ ((digitsVal ((jsTrim "05032024").data.drop 4 ++
          ((jsTrim "05032024").data.drop 2).take 2 ++ (jsTrim "05032024").data.take 2) : ℕ) : ℚ)) :=
  ⟨parseDato_characterization.1 "2024" (by decide),
   parseDato_characterization.2.1 "abcd1234" (by decide),
   parseDato_characterization.2.2.1 "05032024" (by decide) (by decide)⟩

/-- C4 counterexample: the 8-character malformed date `"abcd1234"` does not
parse to the integer `0`; it parses to NaN. -/
theorem parseDato_malformed_counterexample :
    parseDato "abcd1234" ≠ some 0 ∧ parseDato "abcd1234" = none :=
  ⟨by decide, by decide⟩

/-! ## Temporal reduction proofs -/

theorem specLatest_eq_none_iff (g : List TilsynRow) : specLatest g = none ↔ g = [] := by
  constructor
  · intro h
    cases g with
    | nil => rfl
    | cons a g =>
      exfalso
      unfold specLatest at h
      rw [List.map_cons, listMax_cons] at h
      dsimp only at h
      have hmem : (g.map pdQ).foldl max (pdQ a) ∈ pdQ a :: g.map pdQ :=
        listMax_mem (listMax_cons (pdQ a) (g.map pdQ))
      rw [← List.map_cons] at hmem
      obtain ⟨x, hx, hxe⟩ := List.mem_map.mp hmem
      have hxf : x ∈ (a :: g).filter
          (fun r => decide (pdQ r = (g.map pdQ).foldl max (pdQ a))) :=
        List.mem_filter.mpr ⟨hx, decide_eq_true hxe⟩
      rw [List.head?_eq_none_iff.mp h] at hxf
      exact absurd hxf (List.not_mem_nil x)
  · intro h; subst h; rfl

theorem specLatest_some_elim {g : List TilsynRow} {cur : TilsynRow}
    (h : specLatest g = some cur) :
    ∃ m0, listMax (g.map pdQ) = some m0 ∧ pdQ cur = m0 ∧ cur ∈ g ∧
      (g.filter (fun r => decide (pdQ r = m0))).head? = some cur := by
  unfold specLatest at h
  cases hmax : listMax (g.map pdQ) with
  | none => rw [hmax] at h; exact absurd h (by simp)
  | some m0 =>
    rw [hmax] at h
    dsimp only at h
    have hcurmem : cur ∈ g.filter (fun r => decide (pdQ r = m0)) := by
      cases hf : g.filter (fun r => decide (pdQ r = m0)) with
      | nil => rw [hf] at h; exact absurd h (by simp)
      | cons b t =>
        rw [hf] at h
        obtain rfl : b = cur := by simpa using h
        exact List.mem_cons_self b t
    obtain ⟨hing, hdec⟩ := List.mem_filter.mp hcurmem
    exact ⟨m0, rfl, of_decide_eq_true hdec, hing, h⟩

theorem specLatest_append (g : List TilsynRow) (r : TilsynRow) :
    specLatest (g ++ [r]) =
      match specLatest g with
      | none => some r
      | some cur => if pdQ cur < pdQ r then some r else some cur := by
  cases hg : specLatest g with
  | none =>
    obtain rfl : g = [] := (specLatest_eq_none_iff g).mp hg
    dsimp only
    unfold specLatest
    rw [List.nil_append, List.map_cons, List.map_nil, listMax_cons]
    simp
  | some cur =>
    obtain ⟨m0, hmax, hpd, hmem, hhead⟩ := specLatest_some_elim hg
    dsimp only
    unfold specLatest
    rw [List.map_append, List.map_cons, List.map_nil, listMax_append_one, hmax]
    dsimp only [maxStep]
    by_cases hlt : m0 < pdQ r
    · rw [if_pos (by rw [hpd]; exact hlt)]
      rw [max_eq_right (le_of_lt hlt)]
      rw [List.filter_append]
      have hfg : g.filter (fun x => decide (pdQ x = pdQ r)) = [] := by
        rw [List.filter_eq_nil_iff]
        intro x hx
        simp only [decide_eq_true_eq]
        intro hEq
        have hle : pdQ x ≤ m0 := listMax_isUB hmax _ (List.mem_map_of_mem pdQ hx)
        rw [hEq] at hle
        exact absurd hle (not_le.mpr hlt)
      rw [hfg, List.nil_append]
      simp
    · rw [if_neg (by rw [hpd]; exact hlt)]
      rw [max_eq_left (not_lt.mp hlt)]
      rw [List.filter_append]
      cases hfg : g.filter (fun x => decide (pdQ x = m0)) with
      | nil => rw [hfg] at hhead; exact absurd hhead (by simp)
      | cons b t =>
        rw [hfg] at hhead
        obtain rfl : b = cur := by simpa using hhead
        simp

theorem latestStep_ne (m : String → Option TilsynRow) (r : TilsynRow) {k : String}
    (hk : k ≠ r.tilsynsobjektid) : latestStep m r k = m k := by
  unfold latestStep
  cases m r.tilsynsobjektid with
  | none => dsimp only; rw [if_neg hk]
  | some cur =>
    dsimp only
    by_cases hg : jsGt (parseDato r.dato) (parseDato cur.dato) = true
    · rw [if_pos hg]; rw [if_neg hk]
    · rw [if_neg hg]

theorem buildLatest_append (l : List TilsynRow) (r : TilsynRow) :
    buildLatest (l ++ [r]) = latestStep (buildLatest l) r := by
  unfold buildLatest
  rw [List.foldl_append]
  rfl

theorem buildLatest_eq_specLatest (rs : List TilsynRow) :
    (∀ r ∈ rs, (parseDato r.dato).isSome = true) → ∀ id : String,
      buildLatest rs id =
        specLatest (rs.filter (fun r => decide (r.tilsynsobjektid = id))) := by
  induction rs using List.reverseRecOn with
  | nil => intro _ id; rfl
  | append_singleton l r ih =>
    intro hp id
    have hpl : ∀ x ∈ l, (parseDato x.dato).isSome = true :=
      fun x hx => hp x (List.mem_append_left _ hx)
    have hpr : (parseDato r.dato).isSome = true :=
      hp r (List.mem_append_right _ (List.mem_singleton.mpr rfl))
    have ihid := ih hpl id
    rw [buildLatest_append, List.filter_append]
    by_cases hid : r.tilsynsobjektid = id
    · have hfr : [r].filter (fun x => decide (x.tilsynsobjektid = id)) = [r] := by
        simp [hid]
      rw [hfr, specLatest_append]
      cases hcur : specLatest (l.filter (fun x => decide (x.tilsynsobjektid = id))) with
      | none =>
        have hbl : buildLatest l id = none := by rw [ihid, hcur]
        dsimp only
        unfold latestStep
        rw [hid, hbl]
        dsimp only
        rw [if_pos rfl]
      | some cur =>
        have hbl : buildLatest l id = some cur := by rw [ihid, hcur]
        have hcurl : cur ∈ l := by
          obtain ⟨m0, _, _, hcm, _⟩ := specLatest_some_elim hcur
          exact (List.mem_filter.mp hcm).1
        obtain ⟨pr, hpr2⟩ := Option.isSome_iff_exists.mp hpr
        obtain ⟨pc, hpc2⟩ := Option.isSome_iff_exists.mp (hpl cur hcurl)
        have hpdr : pdQ r = pr := by unfold pdQ; rw [hpr2]; rfl
        have hpdc : pdQ cur = pc := by unfold pdQ; rw [hpc2]; rfl
        dsimp only
        unfold latestStep
        rw [hid, hbl]
        dsimp only
        rw [hpr2, hpc2]
        unfold jsGt
        by_cases hlt : pc < pr
        · rw [if_pos (by simpa using hlt)]
          rw [if_pos rfl, if_pos (by rw [hpdc, hpdr]; exact hlt)]
        · rw [if_neg (by simpa using hlt), if_neg (by rw [hpdc, hpdr]; exact hlt)]
          exact hbl
    · have hfr : [r].filter (fun x => decide (x.tilsynsobjektid = id)) = [] := by
        simp [hid]
      rw [hfr, List.append_nil]
      rw [latestStep_ne _ _ (fun h => hid h.symm)]
      exact ihid

/-- C3 (amended): over records with non-empty entity id, date and name, the
latest-per-entity map holds, for each id, the first-encountered record
among those attaining the maximal parsed date — provided every date parses
to a number.  (An 8-character malformed date parses to NaN, never compares
greater, and so blocks later replacement: see the counterexample.) -/
theorem temporal_reduction_latest (rows : List TilsynRow)
    (hp : ∀ r ∈ filterRows rows, (parseDato r.dato).isSome = true) :
    ∀ id : String,
      buildLatest (filterRows rows) id =
        specLatest ((filterRows rows).filter
          (fun r => decide (r.tilsynsobjektid = id))) :=
  buildLatest_eq_specLatest (filterRows rows) hp

/-- C3 witness: the reduction applied to a two-row input with dates
`"01012024"` and `"15012024"` for the same entity. -/
theorem temporal_reduction_latest_witness :
    buildLatest (filterRows rowsC3w) "b" =
      specLatest ((filterRows rowsC3w).filter
        (fun r => decide (r.tilsynsobjektid = "b"))) :=
  temporal_reduction_latest rowsC3w (by decide) "b"

/-- C3 counterexample: a first-encountered record with the malformed
8-character date `"abcd1234"` (parsed date NaN) is kept over a later record
with the well-formed date `"05032024"`, although only the later record
attains the maximal parsed date. -/
theorem temporal_reduction_counterexample :
    buildLatest (filterRows rowsC3) "a" = some rowNan ∧
    specLatest ((filterRows rowsC3).filter
      (fun r => decide (r.tilsynsobjektid = "a"))) = some rowOk ∧
    rowNan ≠ rowOk :=
  ⟨by decide, by decide, by decide⟩

/-! ## Registry resolution order -/

/-- C5: for a valid organisation number, resolution uses the sub-entity
result whenever it carries a populated organisation number — independently
of what the main-entity endpoint would answer — and only otherwise uses the
main-entity result under the same condition; failing both, it is `null`. -/
theorem registry_resolution_order (env : Env) (o : String)
    (_hv : isValidOrgnr (some o) = true) :
    (popResult (fetchJsonOrNull (env.under o)) = true →
      fetchBrregEntity env o = fetchJsonOrNull (env.under o) ∧
      ∀ env2 : Env, env2.under = env.under →
        fetchBrregEntity env2 o = fetchBrregEntity env o) ∧
    (popResult (fetchJsonOrNull (env.under o)) = false →
      popResult (fetchJsonOrNull (env.enhet o)) = true →
      fetchBrregEntity env o = fetchJsonOrNull (env.enhet o)) ∧
    (popResult (fetchJsonOrNull (env.under o)) = false →
      popResult (fetchJsonOrNull (env.enhet o)) = false →
      fetchBrregEntity env o = none) := by
  refine ⟨?_, ?_, ?_⟩
  · intro hu
    constructor
    · unfold fetchBrregEntity
      rw [if_pos hu]
    · intro env2 h2
      unfold fetchBrregEntity
      rw [h2, if_pos hu, if_pos hu]
  · intro hu he
    unfold fetchBrregEntity
    rw [if_neg (by rw [hu]; exact Bool.false_ne_true), if_pos he]
  · intro hu he
    unfold fetchBrregEntity
    rw [if_neg (by rw [hu]; exact Bool.false_ne_true),
        if_neg (by rw [he]; exact Bool.false_ne_true)]

/-- C5 witness: with both endpoints answering (and differing), resolution
returns the sub-entity record. -/
theorem registry_resolution_order_witness :
    isValidOrgnr (some "999888777") = true ∧
    fetchBrregEntity envBrregBoth "999888777" = some entUnder ∧
    fetchJsonOrNull (envBrregBoth.enhet "999888777") = some entMain ∧
    entUnder ≠ entMain := by
  refine ⟨by decide, ?_, by decide, by decide⟩
  have h :=
    ((registry_resolution_order envBrregBoth "999888777" (by decide)).1 (by decide)).1
  rw [h]
  decide

/-! ## Pipeline frame lemmas -/

theorem ensureBrreg_geo (env : Env) (s : PipeState) (o : String) :
    (ensureBrreg env s o).geocodeCache = s.geocodeCache ∧
    (ensureBrreg env s o).geocodeAttempts = s.geocodeAttempts ∧
    (ensureBrreg env s o).geocodeSleeps = s.geocodeSleeps ∧
    (ensureBrreg env s o).geocodeTrace = s.geocodeTrace ∧
    (ensureBrreg env s o).geocodeHits = s.geocodeHits ∧
    (ensureBrreg env s o).features = s.features := by
  unfold ensureBrreg
  split <;> exact ⟨rfl, rfl, rfl, rfl, rfl, rfl⟩

theorem stateAfterBrreg_geo (env : Env) (s : PipeState) (r : TilsynRow) :
    (stateAfterBrreg env s r).geocodeCache = s.geocodeCache ∧
    (stateAfterBrreg env s r).geocodeAttempts = s.geocodeAttempts ∧
    (stateAfterBrreg env s r).geocodeSleeps = s.geocodeSleeps ∧
    (stateAfterBrreg env s r).geocodeTrace = s.geocodeTrace ∧
    (stateAfterBrreg env s r).geocodeHits = s.geocodeHits ∧
    (stateAfterBrreg env s r).features = s.features := by
  unfold stateAfterBrreg
  split
  · exact ensureBrreg_geo env s _
  · exact ⟨rfl, rfl, rfl, rfl, rfl, rfl⟩

theorem brregHitBump_pres (s : PipeState) (r : TilsynRow) :
    (brregHitBump s r).geocodeCache = s.geocodeCache ∧
    (brregHitBump s r).geocodeAttempts = s.geocodeAttempts ∧
    (brregHitBump s r).geocodeSleeps = s.geocodeSleeps ∧
    (brregHitBump s r).geocodeTrace = s.geocodeTrace ∧
    (brregHitBump s r).geocodeHits = s.geocodeHits ∧
    (brregHitBump s r).features = s.features ∧
    (brregHitBump s r).brregCache = s.brregCache ∧
    (brregHitBump s r).brregTrace = s.brregTrace := by
  unfold brregHitBump
  split <;> exact ⟨rfl, rfl, rfl, rfl, rfl, rfl, rfl, rfl⟩

theorem geocodePhase_brreg (env : Env) (s : PipeState) (r : TilsynRow)
    (orgnr : Option String) (best : Option (String × Kilde)) :
    (geocodePhase env s r orgnr best).brregCache = s.brregCache ∧
    (geocodePhase env s r orgnr best).brregTrace = s.brregTrace ∧
    (geocodePhase env s r orgnr best).brregLookups = s.brregLookups ∧
    (geocodePhase env s r orgnr best).brregHits = s.brregHits := by
  unfold geocodePhase
  split
  · exact ⟨rfl, rfl, rfl, rfl⟩
  · split
    · exact ⟨rfl, rfl, rfl, rfl⟩
    · dsimp only
      split <;> exact ⟨rfl, rfl, rfl, rfl⟩

theorem processRow_brreg_eq (env : Env) (s : PipeState) (r : TilsynRow) :
    (processRow env s r).brregCache = (stateAfterBrreg env s r).brregCache ∧
    (processRow env s r).brregTrace = (stateAfterBrreg env s r).brregTrace := by
  unfold processRow
  have h1 := geocodePhase_brreg env (brregHitBump (stateAfterBrreg env s r) r) r
    (rowOrgnr r) (bestAdresse env s r)
  have h2 := brregHitBump_pres (stateAfterBrreg env s r) r
  exact ⟨h1.1.trans h2.2.2.2.2.2.2.1, h1.2.1.trans h2.2.2.2.2.2.2.2⟩

/-! ## Registry cache write-through memoisation -/

theorem ensureBrreg_hit (env : Env) (s : PipeState) (o : String)
    {v : Option BrregEntity} (h : s.brregCache o = some v) :
    ensureBrreg env s o = s := by
  unfold ensureBrreg
  rw [h]

theorem ensureBrreg_miss (env : Env) (s : PipeState) (o : String)
    (h : s.brregCache o = none) :
    (∀ k, (ensureBrreg env s o).brregCache k =
      (if k = o then some (fetchBrregEntity env o) else s.brregCache k)) ∧
    (ensureBrreg env s o).brregTrace = s.brregTrace ++ [o] := by
  unfold ensureBrreg
  rw [h]
  exact ⟨fun k => rfl, rfl⟩

theorem processRow_cache_present (env : Env) (s : PipeState) (r : TilsynRow)
    {o : String} {v : Option BrregEntity} (h : s.brregCache o = some v) :
    (processRow env s r).brregCache o = some v ∧
    (processRow env s r).brregTrace.count o = s.brregTrace.count o := by
  obtain ⟨hc, ht⟩ := processRow_brreg_eq env s r
  rw [hc, ht]
  unfold stateAfterBrreg
  cases ho : rowOrgnr r with
  | none => exact ⟨h, rfl⟩
  | some o2 =>
    dsimp only
    cases hc2 : s.brregCache o2 with
    | some w => rw [ensureBrreg_hit env s o2 hc2]; exact ⟨h, rfl⟩
    | none =>
      have hne : o ≠ o2 := by
        intro he
        rw [he, hc2] at h
        exact Option.noConfusion h
      obtain ⟨hk, htr⟩ := ensureBrreg_miss env s o2 hc2
      constructor
      · rw [hk o, if_neg hne]; exact h
      · rw [htr, List.count_append]
        simp [List.count_cons, hne]

theorem processRow_cache_hitkey (env : Env) (s : PipeState) (r : TilsynRow)
    {o : String} (ho : rowOrgnr r = some o) (h : s.brregCache o = none) :
    (processRow env s r).brregCache o = some (fetchBrregEntity env o) ∧
    (processRow env s r).brregTrace.count o = s.brregTrace.count o + 1 := by
  obtain ⟨hc, ht⟩ := processRow_brreg_eq env s r
  rw [hc, ht]
  unfold stateAfterBrreg
  rw [ho]
  dsimp only
  obtain ⟨hk, htr⟩ := ensureBrreg_miss env s o h
  constructor
  · rw [hk o, if_pos rfl]
  · rw [htr, List.count_append]
    simp [List.count_cons]

theorem processRow_cache_otherkey (env : Env) (s : PipeState) (r : TilsynRow)
    {o : String} (ho : rowOrgnr r ≠ some o) (h : s.brregCache o = none) :
    (processRow env s r).brregCache o = none ∧
    (processRow env s r).brregTrace.count o = s.brregTrace.count o := by
  obtain ⟨hc, ht⟩ := processRow_brreg_eq env s r
  rw [hc, ht]
  unfold stateAfterBrreg
  cases ho2 : rowOrgnr r with
  | none => exact ⟨h, rfl⟩
  | some o2 =>
    have hne : o ≠ o2 := by
      intro he
      rw [he] at ho
      exact ho ho2
    dsimp only
    cases hc2 : s.brregCache o2 with
    | some w => rw [ensureBrreg_hit env s o2 hc2]; exact ⟨h, rfl⟩
    | none =>
      obtain ⟨hk, htr⟩ := ensureBrreg_miss env s o2 hc2
      constructor
      · rw [hk o, if_neg hne]; exact h
      · rw [htr, List.count_append]
        simp [List.count_cons, hne]

theorem runAll_cache_present (env : Env) (rows : List TilsynRow) :
    ∀ (s : PipeState) (o : String) (v : Option BrregEntity), s.brregCache o = some v →
      (runAll env s rows).brregCache o = some v ∧
      (runAll env s rows).brregTrace.count o = s.brregTrace.count o := by
  induction rows with
  | nil => intro s o v h; exact ⟨h, rfl⟩
  | cons r rest ih =>
    intro s o v h
    obtain ⟨h1, h2⟩ := processRow_cache_present env s r h
    obtain ⟨h3, h4⟩ := ih (processRow env s r) o v h1
    exact ⟨h3, h4.trans h2⟩

/-- C6: the registry cache is a write-through memo of the last attempted
resolution.  For a number already present in the cache (even mapped to
null), a run makes no further registry call for it and leaves the entry
unchanged; for a number absent from the cache that some processed record
carries as a valid organisation number, exactly one resolution is attempted
and whatever it returned — including null from a 404 or from a transient
failure — is stored under that number. -/
theorem registry_cache_writethrough (env : Env) (rows : List TilsynRow)
    (s : PipeState) (o : String) :
    (∀ v, s.brregCache o = some v →
      (runAll env s rows).brregCache o = some v ∧
      (runAll env s rows).brregTrace.count o = s.brregTrace.count o) ∧
    (s.brregCache o = none → (∃ r ∈ rows, rowOrgnr r = some o) →
      (runAll env s rows).brregCache o = some (fetchBrregEntity env o) ∧
      (runAll env s rows).brregTrace.count o = s.brregTrace.count o + 1) := by
  constructor
  · intro v h
    exact runAll_cache_present env rows s o v h
  · induction rows generalizing s with
    | nil =>
      intro _ hex
      obtain ⟨r, hr, _⟩ := hex
      exact absurd hr (List.not_mem_nil r)
    | cons r rest ih =>
      intro h hex
      by_cases ho : rowOrgnr r = some o
      · obtain ⟨h1, h2⟩ := processRow_cache_hitkey env s r ho h
        obtain ⟨h3, h4⟩ := runAll_cache_present env rest (processRow env s r) o _ h1
        exact ⟨h3, h4.trans h2⟩
      · obtain ⟨x, hx, hxo⟩ := hex
        have hx2 : x ∈ rest := by
          rcases List.mem_cons.mp hx with rfl | hx2
          · exact absurd hxo ho
          · exact hx2
        obtain ⟨h1, h2⟩ := processRow_cache_otherkey env s r ho h
        obtain ⟨h3, h4⟩ := ih (processRow env s r) h1 ⟨x, hx2, hxo⟩
        exact ⟨h3, h4.trans (by rw [h2])⟩

/-- C6 witness: a fresh run over one record with a valid organisation
number performs exactly one registry resolution and stores its value (here
null, both endpoints being 404) under the number. -/
theorem registry_cache_writethrough_witness :
    initState.brregCache "987654321" = none ∧
    (∃ r ∈ [rowOrg], rowOrgnr r = some "987654321") ∧
    (runAll envGeoFail initState [rowOrg]).brregCache "987654321" =
      some (fetchBrregEntity envGeoFail "987654321") ∧
    (runAll envGeoFail initState [rowOrg]).brregTrace.count "987654321" =
      initState.brregTrace.count "987654321" + 1 := by
  have h := (registry_cache_writethrough envGeoFail [rowOrg] initState "987654321").2
    rfl ⟨rowOrg, List.mem_singleton.mpr rfl, by decide⟩
  exact ⟨rfl, ⟨rowOrg, List.mem_singleton.mpr rfl, by decide⟩, h.1, h.2⟩

/-! ## Geocode phase equations -/

theorem processRow_eq (env : Env) (s : PipeState) (r : TilsynRow) :
    processRow env s r =
      geocodePhase env (brregHitBump (stateAfterBrreg env s r) r) r (rowOrgnr r)
        (bestAdresse env s r) := rfl

theorem geocodePhase_none (env : Env) (S : PipeState) (r : TilsynRow)
    (orgnr : Option String) : geocodePhase env S r orgnr none = S := rfl

theorem geocodePhase_hit (env : Env) (S : PipeState) (r : TilsynRow)
    (orgnr : Option String) (a : String) (k : Kilde) {g : LngLat}
    (hhit : S.geocodeCache a = some g) :
    geocodePhase env S r orgnr (some (a, k)) =
      { S with features := S.features ++ [mkFeature r orgnr a k g] } := by
  unfold geocodePhase
  dsimp only
  rw [hhit]

theorem geocodePhase_miss_none (env : Env) (S : PipeState) (r : TilsynRow)
    (orgnr : Option String) (a : String) (k : Kilde)
    (hmiss : S.geocodeCache a = none)
    (hgeo : geocodeKartverket env (normalizeQuery a) = none) :
    geocodePhase env S r orgnr (some (a, k)) =
      { S with geocodeAttempts := S.geocodeAttempts + 1
               geocodeTrace := S.geocodeTrace ++ [normalizeQuery a]
               geocodeSleeps := S.geocodeSleeps + 1 } := by
  unfold geocodePhase
  dsimp only
  rw [hmiss]
  dsimp only
  rw [hgeo]

theorem geocodePhase_miss_some (env : Env) (S : PipeState) (r : TilsynRow)
    (orgnr : Option String) (a : String) (k : Kilde) {c : LngLat}
    (hmiss : S.geocodeCache a = none)
    (hgeo : geocodeKartverket env (normalizeQuery a) = some c) :
    geocodePhase env S r orgnr (some (a, k)) =
      { S with geocodeAttempts := S.geocodeAttempts + 1
               geocodeTrace := S.geocodeTrace ++ [normalizeQuery a]
               geocodeSleeps := S.geocodeSleeps + 1
               geocodeHits := S.geocodeHits + 1
               geocodeCache := fun key => if key = a then some c else S.geocodeCache key
               features := S.features ++ [mkFeature r orgnr a k c] } := by
  unfold geocodePhase
  dsimp only
  rw [hmiss]
  dsimp only
  rw [hgeo]

theorem s2_frames (env : Env) (s : PipeState) (r : TilsynRow) :
    (brregHitBump (stateAfterBrreg env s r) r).geocodeCache = s.geocodeCache ∧
    (brregHitBump (stateAfterBrreg env s r) r).geocodeAttempts = s.geocodeAttempts ∧
    (brregHitBump (stateAfterBrreg env s r) r).geocodeSleeps = s.geocodeSleeps ∧
    (brregHitBump (stateAfterBrreg env s r) r).geocodeTrace = s.geocodeTrace ∧
    (brregHitBump (stateAfterBrreg env s r) r).features = s.features := by
  obtain ⟨a1, a2, a3, a4, a5, a6⟩ := stateAfterBrreg_geo env s r
  obtain ⟨b1, b2, b3, b4, b5, b6, _, _⟩ := brregHitBump_pres (stateAfterBrreg env s r) r
  exact ⟨b1.trans a1, b2.trans a2, b3.trans a3, b4.trans a4, b6.trans a6⟩

/-! ## Claims about geocoding and emission -/

/-- C8: a record with a resolvable address whose geocoding attempt fails
yields no feature and writes nothing into the geocode cache; and a geocode
fails (is `null`) exactly on a non-2xx response or a 2xx response lacking a
well-formed representative point. -/
theorem geocode_failure_drops (env : Env) (s : PipeState) (r : TilsynRow)
    (a : String) (k : Kilde)
    (hb : bestAdresse env s r = some (a, k)) (hmiss : s.geocodeCache a = none)
    (hgeo : geocodeKartverket env (normalizeQuery a) = none) :
    ((processRow env s r).features = s.features ∧
      ∀ key, (processRow env s r).geocodeCache key = s.geocodeCache key) ∧
    (∀ q code, env.kartverket q = HttpResult.httpError code →
      geocodeKartverket env q = none) ∧
    (∀ q, env.kartverket q = HttpResult.notFound → geocodeKartverket env q = none) ∧
    (∀ q payload, env.kartverket q = HttpResult.ok payload →
      extractLngLatFromKartverket payload = none → geocodeKartverket env q = none) := by
  obtain ⟨f1, f2, f3, f4, f5⟩ := s2_frames env s r
  refine ⟨?_, ?_, ?_, ?_⟩
  · rw [processRow_eq, hb,
      geocodePhase_miss_none env _ r _ a k (by rw [f1]; exact hmiss) hgeo]
    exact ⟨f5, fun key => congrFun f1 key⟩
  · intro q code hq
    unfold geocodeKartverket
    rw [hq]
  · intro q hq
    unfold geocodeKartverket
    rw [hq]
  · intro q payload hq hx
    unfold geocodeKartverket
    rw [hq]
    exact hx

/-- C8 witness: a record with fallback address `"Gata 1"` against a
geocoder that answers 500 is dropped and caches nothing. -/
theorem geocode_failure_drops_witness :
    bestAdresse envGeoFail initState rowAddr1 = some ("Gata 1", Kilde.MAT) ∧
    (processRow envGeoFail initState rowAddr1).features = initState.features ∧
    (∀ key, (processRow envGeoFail initState rowAddr1).geocodeCache key =
      initState.geocodeCache key) := by
  have h := geocode_failure_drops envGeoFail initState rowAddr1 "Gata 1" Kilde.MAT
    (by decide) rfl (by decide)
  exact ⟨by decide, h.1.1, h.1.2⟩

/-- C9 (amended): a feature is emitted for a processed record exactly when
both an address and a coordinate are obtained: with no obtainable address
the record is dropped with no geocode attempt; with an address but no
coordinate it is dropped; otherwise one feature is emitted, carrying the
legacy aggregate rating parsed as a number — `Number(total_karakter)` when
finite (an integer whenever the field holds an integer numeral), the
sentinel `-1` when it is NaN — rather than rating failures dropping the
record. -/
theorem emission_iff_address_and_coords (env : Env) (s : PipeState) (r : TilsynRow) :
    (bestAdresse env s r = none →
      (processRow env s r).features = s.features ∧
      (processRow env s r).geocodeAttempts = s.geocodeAttempts ∧
      (processRow env s r).geocodeTrace = s.geocodeTrace) ∧
    (∀ a k, bestAdresse env s r = some (a, k) →
      (geoOutcome env s a = none → (processRow env s r).features = s.features) ∧
      (∀ g, geoOutcome env s a = some g →
        (processRow env s r).features =
          s.features ++ [mkFeature r (rowOrgnr r) a k g])) ∧
    (∀ orgnr a k g, (mkFeature r orgnr a k g).properties.karakter = jsKarakter r) ∧
    (jsNumber r.total_karakter = none → jsKarakter r = -1) ∧
    (∀ q, jsNumber r.total_karakter = some q → jsKarakter r = q) := by
  obtain ⟨f1, f2, f3, f4, f5⟩ := s2_frames env s r
  refine ⟨?_, ?_, fun orgnr a k g => rfl, ?_, ?_⟩
  · intro hb
    rw [processRow_eq, hb, geocodePhase_none]
    exact ⟨f5, f2, f4⟩
  · intro a k hb
    constructor
    · intro hout
      unfold geoOutcome at hout
      cases hc : s.geocodeCache a with
      | some g => rw [hc] at hout; exact absurd hout (by simp)
      | none =>
        rw [hc] at hout
        dsimp only at hout
        rw [processRow_eq, hb,
          geocodePhase_miss_none env _ r _ a k (by rw [f1]; exact hc) hout]
        exact f5
    · intro g hout
      unfold geoOutcome at hout
      cases hc : s.geocodeCache a with
      | some g0 =>
        rw [hc] at hout
        dsimp only at hout
        obtain rfl : g0 = g := Option.some.inj hout
        rw [processRow_eq, hb, geocodePhase_hit env _ r _ a k (by rw [f1]; exact hc)]
        dsimp only
        rw [f5]
      | none =>
        rw [hc] at hout
        dsimp only at hout
        rw [processRow_eq, hb,
          geocodePhase_miss_some env _ r _ a k (by rw [f1]; exact hc) hout]
        dsimp only
        rw [f5]
  · intro h
    unfold jsKarakter
    rw [h]
  · intro q h
    unfold jsKarakter
    rw [h]

/-- C9 witness: with a responding geocoder, the record with fallback
address `"Gata 1"` emits exactly one feature with the cached coordinate. -/
theorem emission_iff_witness :
    bestAdresse envGeoOk initState rowAddr1 = some ("Gata 1", Kilde.MAT) ∧
    geoOutcome envGeoOk initState "Gata 1" = some { lon := 10, lat := 59 } ∧
    (processRow envGeoOk initState rowAddr1).features =
      initState.features ++
        [mkFeature rowAddr1 (rowOrgnr rowAddr1) "Gata 1" Kilde.MAT
          { lon := 10, lat := 59 }] := by
  refine ⟨by decide, by decide, ?_⟩
  exact ((emission_iff_address_and_coords envGeoOk initState rowAddr1).2.1
    "Gata 1" Kilde.MAT (by decide)).2 { lon := 10, lat := 59 } (by decide)

/-- C9 counterexample: a record whose legacy rating field holds `"2.5"` is
emitted carrying karakter `5/2` — a non-integer that is not the `-1`
sentinel — refuting "parsed as an integer with parse failure stored as
`-1`". -/
theorem emission_nonint_counterexample :
    (processRow envGeoOk initState rowHalf).features.map
      (fun f => f.properties.karakter) = [5 / 2] ∧
    ((5 : ℚ) / 2).den = 2 ∧
    ¬(∃ n : ℤ, ((5 : ℚ) / 2) = (n : ℚ)) ∧
    ((5 : ℚ) / 2) ≠ -1 := by
  have hdiv : (Rat.divInt 25 10 : ℚ) = 5 / 2 := by rw [Rat.divInt_eq_div]; norm_num
  have hden : ((5 : ℚ) / 2).den = 2 := by rw [← hdiv]; decide
  refine ⟨?_, hden, ?_, by norm_num⟩
  · have h : (processRow envGeoOk initState rowHalf).features.map
        (fun f => f.properties.karakter) = [Rat.divInt 25 10] := by decide
    rw [h, hdiv]
  · rintro ⟨n, hn⟩
    have h1 : ((5 : ℚ) / 2).den = 1 := by rw [hn]; exact Rat.den_intCast n
    rw [hden] at h1
    exact absurd h1 (by norm_num)

/-- C7 (amended): two records resolving to the same address string, where
the address is not yet cached and the first geocoding attempt succeeds,
cause exactly one external geocoding call: the first processing performs it
and caches the coordinate, the second finds the cache entry and emits its
feature with the cached coordinate, adding no call and no delay. -/
theorem geocode_cache_idempotence (env : Env) (s : PipeState) (r1 r2 : TilsynRow)
    (a : String) (k1 k2 : Kilde) (c : LngLat)
    (h1 : bestAdresse env s r1 = some (a, k1))
    (h2 : bestAdresse env (processRow env s r1) r2 = some (a, k2))
    (hmiss : s.geocodeCache a = none)
    (hgeo : geocodeKartverket env (normalizeQuery a) = some c) :
    (processRow env s r1).geocodeAttempts = s.geocodeAttempts + 1 ∧
    (processRow env s r1).geocodeCache a = some c ∧
    (processRow env (processRow env s r1) r2).geocodeAttempts =
      (processRow env s r1).geocodeAttempts ∧
    (processRow env (processRow env s r1) r2).geocodeSleeps =
      (processRow env s r1).geocodeSleeps ∧
    (processRow env (processRow env s r1) r2).features =
      (processRow env s r1).features ++ [mkFeature r2 (rowOrgnr r2) a k2 c] := by
  obtain ⟨f1, f2, f3, f4, f5⟩ := s2_frames env s r1
  have hs1 := geocodePhase_miss_some env (brregHitBump (stateAfterBrreg env s r1) r1)
    r1 (rowOrgnr r1) a k1 (by rw [f1]; exact hmiss) hgeo
  have ha1 : (processRow env s r1).geocodeAttempts = s.geocodeAttempts + 1 := by
    rw [processRow_eq, h1, hs1]
    dsimp only
    rw [f2]
  have hc1 : (processRow env s r1).geocodeCache a = some c := by
    rw [processRow_eq, h1, hs1]
    dsimp only
    rw [if_pos rfl]
  obtain ⟨g1, g2, g3, g4, g5⟩ := s2_frames env (processRow env s r1) r2
  have hs2 := geocodePhase_hit env
    (brregHitBump (stateAfterBrreg env (processRow env s r1) r2) r2) r2
    (rowOrgnr r2) a k2 (by rw [g1]; exact hc1)
  refine ⟨ha1, hc1, ?_, ?_, ?_⟩
  · rw [processRow_eq env (processRow env s r1) r2, h2, hs2]
    exact g2
  · rw [processRow_eq env (processRow env s r1) r2, h2, hs2]
    exact g3
  · rw [processRow_eq env (processRow env s r1) r2, h2, hs2]
    dsimp only
    rw [g5]

/-- C7 witness: two records with the same fallback address against a
responding geocoder: one attempt, cached coordinate, no second call, no
second delay. -/
theorem geocode_cache_idempotence_witness :
    (processRow envGeoOk initState rowAddr1).geocodeAttempts =
      initState.geocodeAttempts + 1 ∧
    (processRow envGeoOk initState rowAddr1).geocodeCache "Gata 1" =
      some { lon := 10, lat := 59 } ∧
    (processRow envGeoOk (processRow envGeoOk initState rowAddr1) rowAddr2).geocodeAttempts =
      (processRow envGeoOk initState rowAddr1).geocodeAttempts ∧
    (processRow envGeoOk (processRow envGeoOk initState rowAddr1) rowAddr2).geocodeSleeps =
      (processRow envGeoOk initState rowAddr1).geocodeSleeps ∧
    (processRow envGeoOk (processRow envGeoOk initState rowAddr1) rowAddr2).features =
      (processRow envGeoOk initState rowAddr1).features ++
        [mkFeature rowAddr2 (rowOrgnr rowAddr2) "Gata 1" Kilde.MAT
          { lon := 10, lat := 59 }] :=
  geocode_cache_idempotence envGeoOk initState rowAddr1 rowAddr2 "Gata 1"
    Kilde.MAT Kilde.MAT { lon := 10, lat := 59 } (by decide) (by decide) rfl (by decide)

/-- C7 counterexample: when the geocoding attempt fails, nothing is cached,
and a second record with the same address string triggers a second external
call — refuting the unconditional "exactly one external call". -/
theorem geocode_cache_idempotence_counterexample :
    bestAdresse envGeoFail initState rowAddr1 = some ("Gata 1", Kilde.MAT) ∧
    bestAdresse envGeoFail (processRow envGeoFail initState rowAddr1) rowAddr2 =
      some ("Gata 1", Kilde.MAT) ∧
    initState.geocodeAttempts = 0 ∧
    (processRow envGeoFail (processRow envGeoFail initState rowAddr1) rowAddr2).geocodeAttempts = 2 :=
  ⟨by decide, by decide, rfl, by decide⟩

end Smilefjes
